import Mathlib

/-!
Verification of the imgclsmob evaluation script `eval_gl_cifar.py` and the
Gluon PSPNet model definition `gluon/gluoncv2/models/pspnet.py`.

The Python code is shallowly embedded: argument records and control flow are
translated to plain Lean functions; Python `assert` failures and raised
exceptions become `Option`/`Except` error results; the tensor operations of
the model are embedded at the level of their shape semantics.
-/

namespace EvalGlCifar

/-- The CLI arguments of `eval_gl_cifar.py` relevant to the evaluation flow
(`--use-pretrained`, `--resume`, `--calc-flops`, `--calc-flops-only`),
as produced by `parse_args`. -/
structure Args where
  use_pretrained : Bool
  resume : String
  calc_flops : Bool
  calc_flops_only : Bool
deriving DecidableEq, Repr

/-- The arguments `main` passes to `test` (besides the net and data):
`calc_weight_count=True`, `calc_flops=args.calc_flops`,
`calc_flops_only=args.calc_flops_only`, `extended_log=True`. -/
structure TestCall where
  calc_weight_count : Bool
  calc_flops : Bool
  calc_flops_only : Bool
  extended_log : Bool
deriving DecidableEq, Repr

/-- Python `str.strip()` with no argument: remove leading and trailing
whitespace characters. -/
def pyStrip (s : String) : String :=
  ⟨((s.data.dropWhile Char.isWhitespace).reverse.dropWhile Char.isWhitespace).reverse⟩

/-- The assertion guarding `test` in `main`:
`assert (args.use_pretrained or args.resume.strip() or args.calc_flops_only)`.
A Python string is truthy exactly when it is nonempty. -/
def mainAssertHolds (a : Args) : Bool :=
  a.use_pretrained || (pyStrip a.resume != "") || a.calc_flops_only

/-- Function `main`: after preparing context, model and data, it runs the assertion and
then calls `test`. A failed assertion raises, so `test` is not called:
the result is `none` exactly when the assertion fails, and otherwise records
the flags passed to `test`. -/
def main (a : Args) : Option TestCall :=
  if mainAssertHolds a then
    some ⟨true, a.calc_flops, a.calc_flops_only, true⟩
  else
    none

/-- Observable events of `test`, in program order: the `mx.metric.Accuracy()`
construction, the `validate1` forward-pass loop over `val_data`, and the
log lines it emits. -/
inductive TEvent where
  | accuracyMetricCreated
  | validate1Run
  | logTestErr (extended : Bool)
  | logTimeCost
  | logModelParams
  | logFlopsStats
deriving DecidableEq, Repr

/-- Errors `test` can raise in its statistics section: reading the local
variable `weight_count` when it was never assigned (Python
`UnboundLocalError`), or the `assert weight_count == num_params`
cross-check failing. -/
inductive TError where
  | unboundLocalWeightCount
  | assertWeightCountMismatch
deriving DecidableEq, Repr

/-- The outcome of a call to `test`: the events that happened (in order)
before `test` either completed (`error = none`) or raised. -/
structure TestResult where
  events : List TEvent
  error : Option TError
deriving DecidableEq, Repr

/-- Function `test` from `eval_gl_cifar.py`. `netWeightCount` stands for the value
`calc_net_weight_count(net)` would return and `numParams` for the
`num_params` component of `measure_model(...)`; the local `weight_count`
is an `Option` since Python only binds it inside `if calc_weight_count:`.
The Python assertion `(not calc_weight_count) or (weight_count == num_params)`
short-circuits: `weight_count` is read only when `calc_weight_count` holds. -/
def test (calc_weight_count calc_flops calc_flops_only extended_log : Bool)
    (netWeightCount numParams : Nat) : TestResult :=
  let ev1 : List TEvent :=
    if calc_flops_only then []
    else [TEvent.accuracyMetricCreated, TEvent.validate1Run,
          TEvent.logTestErr extended_log, TEvent.logTimeCost]
  let weight_count : Option Nat :=
    if calc_weight_count then some netWeightCount else none
  let ev2 : List TEvent :=
    if calc_weight_count && !calc_flops then [TEvent.logModelParams] else []
  if calc_flops then
    if !calc_weight_count then
      ⟨ev1 ++ ev2 ++ [TEvent.logFlopsStats], none⟩
    else
      match weight_count with
      | none => ⟨ev1 ++ ev2, some TError.unboundLocalWeightCount⟩
      | some w =>
        if w = numParams then ⟨ev1 ++ ev2 ++ [TEvent.logFlopsStats], none⟩
        else ⟨ev1 ++ ev2, some TError.assertWeightCountMismatch⟩
  else ⟨ev1 ++ ev2, none⟩

/-- Claim C1 counterexample: an argument set with `use_pretrained` false and an
empty stripped resume path for which `main` nevertheless passes the assertion
and calls `test`, because `calc_flops_only` is set. This refutes the claim that
every such argument set fails the assertion. -/
theorem main_calls_test_without_pretrained_or_resume :
    main ⟨false, "", false, true⟩ = some ⟨true, false, true, true⟩ := by
  rfl

/-- Claim C1 (amended): `main` fails its assertion and does not call `test`
exactly when `use_pretrained` is false, the stripped resume path is empty, and
`calc_flops_only` is false; the assertion requires pretrained weights, a
resume path, or the FLOPs-only mode. -/
theorem main_assert_characterization (a : Args) :
    main a = none ↔
      (a.use_pretrained = false ∧ pyStrip a.resume = "" ∧ a.calc_flops_only = false) := by
  cases hu : a.use_pretrained <;> cases hc : a.calc_flops_only <;>
    by_cases hr : pyStrip a.resume = "" <;>
      simp [main, mainAssertHolds, hu, hc, hr]

/-- Witness for C1's amended theorem at a concrete argument set. -/
theorem main_assert_characterization_witness :
    main ⟨false, "", false, false⟩ = none :=
  (main_assert_characterization ⟨false, "", false, false⟩).mpr ⟨rfl, rfl, rfl⟩

/-- Claim C5: in every call to `test`, the accuracy metric is created,
`validate1` runs, and the `Test: err=...` and `Time cost: ...` lines are
logged, if and only if `calc_flops_only` is false; when `calc_flops_only` is
true the `validate1` forward-pass loop never runs. -/
theorem test_quality_evaluation_iff_not_flops_only
    (cwc cf cfo el : Bool) (nwc np : Nat) :
    ((TEvent.accuracyMetricCreated ∈ (test cwc cf cfo el nwc np).events ∧
      TEvent.validate1Run ∈ (test cwc cf cfo el nwc np).events ∧
      TEvent.logTestErr el ∈ (test cwc cf cfo el nwc np).events ∧
      TEvent.logTimeCost ∈ (test cwc cf cfo el nwc np).events) ↔ cfo = false) ∧
    (cfo = true → TEvent.validate1Run ∉ (test cwc cf cfo el nwc np).events) := by
  cases cfo <;> cases cf <;> cases cwc <;>
    simp [test] <;> by_cases hnp : nwc = np <;> simp [hnp]

/-- Witness for C5's theorem at concrete flags: with `calc_flops_only` true,
no forward pass happens. -/
theorem test_quality_evaluation_iff_not_flops_only_witness :
    TEvent.validate1Run ∉ (test true false true true 0 0).events :=
  (test_quality_evaluation_iff_not_flops_only true false true true 0 0).2 rfl

/-- Claim C10: `test` never reads the unassigned `weight_count` local (the
short-circuit on `not calc_weight_count` makes the dangerous read
unreachable for every flag combination), and when both `calc_weight_count`
and `calc_flops` are true, `test` completes exactly when
`calc_net_weight_count` and `measure_model` agree on the parameter count. -/
theorem test_weight_count_read_safe (cwc cf cfo el : Bool) (nwc np : Nat) :
    (test cwc cf cfo el nwc np).error ≠ some TError.unboundLocalWeightCount ∧
    (cwc = true → cf = true →
      (((test cwc cf cfo el nwc np).error = none) ↔ nwc = np)) := by
  cases cwc <;> cases cf <;>
    simp [test] <;> by_cases hnp : nwc = np <;> simp [hnp]

/-- Witness for C10's theorem: with both flags set and agreeing counts,
`test` completes without error. -/
theorem test_weight_count_read_safe_witness :
    (test true true false true 7 7).error = none :=
  ((test_weight_count_read_safe true true false true 7 7).2 rfl rfl).mpr rfl

end EvalGlCifar

namespace Pspnet

/-- The shape `(n, c, h, w)` of a 4-dimensional batch tensor: batch size,
channels, height, width. -/
structure Shape where
  n : Nat
  c : Nat
  h : Nat
  w : Nat
deriving DecidableEq, Repr

/-- Modelled from the spec: the conv blocks `conv1x1`, `conv1x1_block` and
`conv3x3_block` imported from `common.py` (not under `src/`) are, per the
spec, pre-built stride-1 convolution layers. Shape semantics: the input must
carry the layer's `in_channels`; the output carries `out_channels` on the
same batch and spatial dimensions. -/
def convShape (in_channels out_channels : Nat) (s : Shape) : Option Shape :=
  if s.c = in_channels then some ⟨s.n, out_channels, s.h, s.w⟩ else none

/-- Modelled from the spec: the framework op `F.contrib.BilinearResize2D`
(resize, per the spec's list of pre-built layers) sets the spatial size to
the given `height` and `width`. -/
def bilinearResize2DShape (height width : Nat) (s : Shape) : Shape :=
  ⟨s.n, s.c, height, width⟩

/-- Modelled from the spec: the framework op `F.contrib.AdaptiveAvgPooling2D`
(pooling, per the spec's list of pre-built layers) pools to an
`output_size` × `output_size` spatial grid. -/
def adaptiveAvgPooling2DShape (output_size : Nat) (s : Shape) : Shape :=
  ⟨s.n, s.c, output_size, output_size⟩

/-- Modelled from the spec: `HybridConcurrent(axis=1)` concatenates its
branch outputs along the channel axis; the other three dimensions must
agree, and the channel counts add. -/
def concatChannels : List Shape → Option Shape
  | [] => none
  | [s] => some s
  | s :: t :: rest =>
    (concatChannels (t :: rest)).bind fun u =>
      if s.n = u.n ∧ s.h = u.h ∧ s.w = u.w then
        some ⟨s.n, s.c + u.c, s.h, s.w⟩
      else none

/-- Map a fallible function over a list, failing if any element fails. -/
def optionMapList (f : α → Option β) : List α → Option (List β)
  | [] => some []
  | a :: as => (f a).bind fun b => (optionMapList f as).map fun bs => b :: bs

/-- Block `PSPFinalBlock`: its constructor arguments together with the derived
`mid_channels = in_channels // bottleneck_factor`. -/
structure PSPFinalBlock where
  in_channels : Nat
  out_channels : Nat
  out_size : Nat × Nat
  mid_channels : Nat
deriving DecidableEq, Repr

/-- Constructor `PSPFinalBlock.__init__`: asserts `in_channels % bottleneck_factor == 0`,
then builds `conv1` (3x3 block `in_channels -> mid_channels`), a dropout and
`conv2` (1x1 conv `mid_channels -> out_channels` with bias). -/
def PSPFinalBlock.init (in_channels out_channels : Nat) (out_size : Nat × Nat)
    (bottleneck_factor : Nat) : Option PSPFinalBlock :=
  if in_channels % bottleneck_factor = 0 then
    some ⟨in_channels, out_channels, out_size, in_channels / bottleneck_factor⟩
  else none

/-- Method `PSPFinalBlock.hybrid_forward` at the shape level: `conv1`, dropout
(shape-preserving), `conv2`, then `BilinearResize2D` to `out_size`. -/
def PSPFinalBlock.forwardShape (b : PSPFinalBlock) (s : Shape) : Option Shape :=
  (convShape b.in_channels b.mid_channels s).bind fun s1 =>
    (convShape b.mid_channels b.out_channels s1).map fun s2 =>
      bilinearResize2DShape b.out_size.1 b.out_size.2 s2

/-- Block `PyramidPoolingBranch`: adaptive average pooling to `output_size`, a 1x1
conv block `in_channels -> out_channels`, and a bilinear resize to
`out_size`. -/
structure PyramidPoolingBranch where
  in_channels : Nat
  out_channels : Nat
  output_size : Nat
  out_size : Nat × Nat
deriving DecidableEq, Repr

/-- Method `PyramidPoolingBranch.hybrid_forward` at the shape level. -/
def PyramidPoolingBranch.forwardShape (b : PyramidPoolingBranch) (s : Shape) :
    Option Shape :=
  (convShape b.in_channels b.out_channels
      (adaptiveAvgPooling2DShape b.output_size s)).map fun u =>
    bilinearResize2DShape b.out_size.1 b.out_size.2 u

/-- The `output_sizes = [1, 2, 3, 6]` list of `PyramidPooling.__init__`. -/
def output_sizes : List Nat := [1, 2, 3, 6]

/-- Block `PyramidPooling`: its constructor arguments with the derived
`mid_channels = in_channels // 4`. -/
structure PyramidPooling where
  in_channels : Nat
  in_size : Nat × Nat
  mid_channels : Nat
deriving DecidableEq, Repr

/-- Constructor `PyramidPooling.__init__`: asserts `len(output_sizes) == 4` and
`in_channels % 4 == 0`, then adds an `Identity` branch followed by one
`PyramidPoolingBranch` per output size. -/
def PyramidPooling.init (in_channels : Nat) (in_size : Nat × Nat) :
    Option PyramidPooling :=
  if output_sizes.length = 4 ∧ in_channels % 4 = 0 then
    some ⟨in_channels, in_size, in_channels / 4⟩
  else none

/-- The `PyramidPoolingBranch` children added by `PyramidPooling.__init__`,
one per entry of `output_sizes`, each `in_channels -> mid_channels` resized
to `in_size`. -/
def PyramidPooling.branchList (p : PyramidPooling) : List PyramidPoolingBranch :=
  output_sizes.map fun os => ⟨p.in_channels, p.mid_channels, os, p.in_size⟩

/-- Method `PyramidPooling.hybrid_forward` at the shape level: the
`HybridConcurrent(axis=1)` container concatenates the identity branch with
the four pooling branches along the channel axis. -/
def PyramidPooling.forwardShape (p : PyramidPooling) (s : Shape) : Option Shape :=
  (optionMapList (fun b => b.forwardShape s) p.branchList).bind fun outs =>
    concatChannels (s :: outs)

/-- Model `PSPNet`: constructor arguments and the child blocks built by
`PSPNet.__init__`. The backbone itself is kept abstract (it is a constructor
argument in the source as well). -/
structure PSPNet where
  backbone_out_channels : Nat
  aux : Bool
  in_channels : Nat
  in_size : Nat × Nat
  classes : Nat
  pool : PyramidPooling
  final_block : PSPFinalBlock
  aux_block : Option PSPFinalBlock
deriving DecidableEq, Repr

/-- Constructor `PSPNet.__init__`: first asserts `in_channels > 0` and
`in_size[0] % 8 == 0 and in_size[1] % 8 == 0` (before any layer is built),
then builds the pyramid pooling over `in_size // 8`, the final block on
`pool_out_channels = 2 * backbone_out_channels` with bottleneck factor 8,
and, when `aux`, an auxiliary block on `backbone_out_channels // 2` with
bottleneck factor 4. -/
def PSPNet.init (backbone_out_channels : Nat) (aux : Bool) (in_channels : Nat)
    (in_size : Nat × Nat) (classes : Nat) : Option PSPNet :=
  if 0 < in_channels then
    if in_size.1 % 8 = 0 ∧ in_size.2 % 8 = 0 then
      (PyramidPooling.init backbone_out_channels (in_size.1 / 8, in_size.2 / 8)).bind
        fun pool =>
          (PSPFinalBlock.init (2 * backbone_out_channels) classes in_size 8).bind
            fun fb =>
              if aux then
                (PSPFinalBlock.init (backbone_out_channels / 2) classes in_size 4).map
                  fun ab =>
                    ⟨backbone_out_channels, aux, in_channels, in_size, classes,
                     pool, fb, some ab⟩
              else
                some ⟨backbone_out_channels, aux, in_channels, in_size, classes,
                      pool, fb, none⟩
    else none
  else none

/-- The result of `PSPNet.hybrid_forward`: a pair `(x, y)` when the model
outputs an auxiliary result, a single tensor otherwise. -/
inductive ForwardOut where
  | pair (x y : Shape)
  | single (x : Shape)
deriving DecidableEq, Repr

/-- The main (first or only) output of a forward result. -/
def mainOutput : ForwardOut → Shape
  | .pair x _ => x
  | .single x => x

/-- Method `PSPNet.hybrid_forward` at the shape level: the backbone yields `(x, y)`;
`x` goes through the pyramid pooling and the final block; when `aux`, `y`
goes through the auxiliary block and a pair is returned, otherwise `y` is
discarded and the single main output is returned. -/
def PSPNet.hybridForwardShape (net : PSPNet) (backbone : Shape → Shape × Shape)
    (s : Shape) : Option ForwardOut :=
  let xy := backbone s
  (net.pool.forwardShape xy.1).bind fun p =>
    (net.final_block.forwardShape p).bind fun x =>
      if net.aux then
        ((net.aux_block.bind fun ab => ab.forwardShape xy.2).map fun y =>
          ForwardOut.pair x y)
      else
        some (ForwardOut.single x)

theorem branch_forwardShape_eq (b : PyramidPoolingBranch) (s : Shape) :
    b.forwardShape s =
      if s.c = b.in_channels then
        some ⟨s.n, b.out_channels, b.out_size.1, b.out_size.2⟩
      else none := by
  simp only [PyramidPoolingBranch.forwardShape, convShape, adaptiveAvgPooling2DShape]
  split <;> simp [bilinearResize2DShape]

theorem finalBlock_forwardShape_eq (b : PSPFinalBlock) (s : Shape) :
    b.forwardShape s =
      if s.c = b.in_channels then
        some ⟨s.n, b.out_channels, b.out_size.1, b.out_size.2⟩
      else none := by
  simp only [PSPFinalBlock.forwardShape, convShape]
  split <;> simp [bilinearResize2DShape]

theorem concatChannels_some_dims : ∀ {l : List Shape} {s t : Shape},
    concatChannels (s :: l) = some t → t.n = s.n ∧ t.h = s.h ∧ t.w = s.w := by
  intro l s t h
  match l with
  | [] =>
    simp [concatChannels] at h
    subst h
    exact ⟨rfl, rfl, rfl⟩
  | a :: l2 =>
    rw [concatChannels] at h
    cases hu : concatChannels (a :: l2) with
    | none => rw [hu] at h; simp at h
    | some u =>
      rw [hu] at h
      simp only [Option.some_bind] at h
      split at h
      · cases h
        exact ⟨rfl, rfl, rfl⟩
      · simp at h

theorem concatChannels_channels : ∀ {l : List Shape} {t : Shape},
    concatChannels l = some t → t.c = (l.map Shape.c).sum := by
  intro l
  induction l with
  | nil => intro t h; simp [concatChannels] at h
  | cons s l ih =>
    intro t h
    match l with
    | [] =>
      simp [concatChannels] at h
      subst h
      simp
    | a :: l2 =>
      rw [concatChannels] at h
      cases hu : concatChannels (a :: l2) with
      | none => rw [hu] at h; simp at h
      | some u =>
        rw [hu] at h
        simp only [Option.some_bind] at h
        split at h
        · cases h
          have hc := ih hu
          simp [hc]
        · simp at h

theorem pool_forwardShape_some {p : PyramidPooling} {s t : Shape}
    (h : p.forwardShape s = some t) :
    s.c = p.in_channels ∧ t = ⟨s.n, s.c + 4 * p.mid_channels, s.h, s.w⟩ := by
  by_cases hc : s.c = p.in_channels
  · refine ⟨hc, ?_⟩
    simp only [PyramidPooling.forwardShape, PyramidPooling.branchList, output_sizes,
      List.map, optionMapList, branch_forwardShape_eq, hc, if_true, Option.some_bind,
      Option.map_some'] at h
    simp [concatChannels] at h
    rw [← h.2]
    simp only [Shape.mk.injEq, true_and, and_true]
    omega
  · simp only [PyramidPooling.forwardShape, PyramidPooling.branchList, output_sizes,
      List.map, optionMapList, branch_forwardShape_eq, hc, if_false] at h
    simp at h

theorem pspnet_init_eq (bb : Nat) (aux : Bool) (ic : Nat) (insz : Nat × Nat)
    (cls : Nat) :
    PSPNet.init bb aux ic insz cls =
      if 0 < ic ∧ insz.1 % 8 = 0 ∧ insz.2 % 8 = 0 ∧ bb % 4 = 0 ∧
          (2 * bb) % 8 = 0 ∧ (aux = true → (bb / 2) % 4 = 0) then
        some ⟨bb, aux, ic, insz, cls,
              ⟨bb, (insz.1 / 8, insz.2 / 8), bb / 4⟩,
              ⟨2 * bb, cls, insz, (2 * bb) / 8⟩,
              if aux then some ⟨bb / 2, cls, insz, bb / 2 / 4⟩ else none⟩
      else none := by
  cases aux <;>
    by_cases h1 : 0 < ic <;>
    by_cases h2 : insz.1 % 8 = 0 <;>
    by_cases h3 : insz.2 % 8 = 0 <;>
    by_cases h4 : bb % 4 = 0 <;>
    by_cases h5 : (2 * bb) % 8 = 0 <;>
    by_cases h6 : (bb / 2) % 4 = 0 <;>
      simp [PSPNet.init, PyramidPooling.init, PSPFinalBlock.init, output_sizes,
        h1, h2, h3, h4, h5, h6]

/-- Claim C2: the `PSPNet` constructor succeeds only if both components of
`in_size` are divisible by 8 and `in_channels` is positive; these assertions
run before any layer is built (in `PSPNet.init` the divisibility and
positivity checks guard the construction of every child block). -/
theorem pspnet_init_shape_invariant (bb : Nat) (aux : Bool) (ic : Nat)
    (insz : Nat × Nat) (cls : Nat) (net : PSPNet)
    (h : PSPNet.init bb aux ic insz cls = some net) :
    0 < ic ∧ insz.1 % 8 = 0 ∧ insz.2 % 8 = 0 := by
  rw [PSPNet.init] at h
  split at h
  · split at h
    · rename_i h1 h2
      exact ⟨h1, h2.1, h2.2⟩
    · simp at h
  · simp at h

/-- Witness for C2's theorem: a successful construction at
`in_size = (8, 8)`, `in_channels = 3`. -/
theorem pspnet_init_shape_invariant_witness :
    0 < 3 ∧ (8, 8).1 % 8 = 0 ∧ (8, 8).2 % 8 = 0 :=
  pspnet_init_shape_invariant 4 false 3 (8, 8) 2
    ⟨4, false, 3, (8, 8), 2, ⟨4, (1, 1), 1⟩, ⟨8, 2, (8, 8), 1⟩, none⟩ (by decide)

/-- Claim C3: for a `PSPNet` built with `in_size = (H, W)` and `classes = cls`
by a constructor that succeeded, and any batch-preserving backbone, whenever
the forward pass succeeds on an input of shape `(N, in_channels, H, W)` the
main output has shape `(N, cls, H, W)`, because `PSPFinalBlock` bilinearly
resizes its `conv2` output to `out_size = in_size`. -/
theorem pspnet_main_output_shape (bb : Nat) (aux : Bool) (ic cls H W N : Nat)
    (net : PSPNet) (hnet : PSPNet.init bb aux ic (H, W) cls = some net)
    (backbone : Shape → Shape × Shape)
    (hb : (backbone ⟨N, ic, H, W⟩).1.n = N) (out : ForwardOut)
    (h : net.hybridForwardShape backbone ⟨N, ic, H, W⟩ = some out) :
    mainOutput out = ⟨N, cls, H, W⟩ := by
  rw [pspnet_init_eq] at hnet
  split at hnet
  · rename_i hcond
    injection hnet with hnet
    subst hnet
    simp only [PSPNet.hybridForwardShape] at h
    cases hp : PyramidPooling.forwardShape ⟨bb, (H / 8, W / 8), bb / 4⟩
        (backbone ⟨N, ic, H, W⟩).1 with
    | none => rw [hp] at h; simp at h
    | some p1 =>
      rw [hp] at h
      simp only [Option.some_bind] at h
      have hpool := pool_forwardShape_some hp
      have hn : p1.n = N := by rw [hpool.2]; exact hb
      rw [finalBlock_forwardShape_eq] at h
      split at h
      · simp only [Option.some_bind] at h
        cases aux with
        | false =>
          simp only [if_false, Bool.false_eq_true, ite_false] at h
          cases h
          simp [mainOutput, hn]
        | true =>
          simp only [if_true] at h
          cases ha : (some (⟨bb / 2, cls, (H, W), bb / 2 / 4⟩ : PSPFinalBlock)).bind
              (fun ab => ab.forwardShape (backbone ⟨N, ic, H, W⟩).2) with
          | none => rw [ha] at h; simp at h
          | some y =>
            rw [ha] at h
            simp only [Option.some_bind, Option.map_some', Option.some.injEq] at h
            subst h
            simp [mainOutput, hn]
      · simp at h
  · simp at hnet

/-- Concrete model for the C3 witness: the net built by
`PSPNet.init 4 false 3 (8, 8) 2`. -/
def netC3 : PSPNet :=
  ⟨4, false, 3, (8, 8), 2, ⟨4, (1, 1), 1⟩, ⟨8, 2, (8, 8), 1⟩, none⟩

/-- Concrete batch-preserving backbone for the C3 witness. -/
def backboneC3 : Shape → Shape × Shape :=
  fun s => (⟨s.n, 4, 1, 1⟩, s)

/-- Witness for C3's theorem: a concrete forward pass whose main output
has shape `(2, 2, 8, 8)` for input `(2, 3, 8, 8)`. -/
theorem pspnet_main_output_shape_witness :
    mainOutput (ForwardOut.single ⟨2, 2, 8, 8⟩) = ⟨2, 2, 8, 8⟩ :=
  pspnet_main_output_shape 4 false 3 2 8 8 2 netC3 (by decide) backboneC3 rfl
    (ForwardOut.single ⟨2, 2, 8, 8⟩) (by decide)

/-- Claim C8: whenever the `PyramidPooling` module (as constructed, which
requires `in_channels % 4 == 0`) produces an output, the output concatenates
the identity branch with four branches of `in_channels // 4` channels each,
so it has exactly `2 * in_channels` channels; and `PSPNet.__init__` feeds the
matching `pool_out_channels = 2 * backbone_out_channels` into
`PSPFinalBlock`. -/
theorem pyramid_pooling_doubles_channels (ic : Nat) (insz : Nat × Nat)
    (p : PyramidPooling) (hp : PyramidPooling.init ic insz = some p) :
    (∀ s t : Shape, p.forwardShape s = some t → t.c = 2 * ic) ∧
    (∀ (bb : Nat) (aux : Bool) (ic2 : Nat) (insz2 : Nat × Nat) (cls : Nat)
        (net : PSPNet), PSPNet.init bb aux ic2 insz2 cls = some net →
      net.pool.in_channels = net.backbone_out_channels ∧
      net.final_block.in_channels = 2 * net.backbone_out_channels) := by
  constructor
  · intro s t h
    rw [PyramidPooling.init] at hp
    split at hp
    · rename_i hcond
      injection hp with hp
      subst hp
      have hfwd := pool_forwardShape_some h
      rw [hfwd.2]
      have hic : s.c = ic := hfwd.1
      have h4 : ic % 4 = 0 := hcond.2
      simp only [hic]
      omega
    · simp at hp
  · intro bb aux ic2 insz2 cls net hnet
    rw [pspnet_init_eq] at hnet
    split at hnet
    · injection hnet with hnet
      subst hnet
      exact ⟨rfl, rfl⟩
    · simp at hnet

/-- Witness for C8's theorem: the concrete pooling module over 4 input
channels maps a `(1, 4, 1, 1)` input to an output with `8 = 2 * 4`
channels. -/
theorem pyramid_pooling_doubles_channels_witness :
    (Shape.mk 1 8 1 1).c = 2 * 4 :=
  (pyramid_pooling_doubles_channels 4 (1, 1) ⟨4, (1, 1), 1⟩ (by decide)).1
    ⟨1, 4, 1, 1⟩ ⟨1, 8, 1, 1⟩ (by decide)

/-- Claim C9: `PSPNet.hybrid_forward` returns a pair whose second component
went through `aux_block` when the model has `aux = True`, and a single tensor
when `aux = False`; in the latter case the backbone's second output is
discarded (the result only depends on the backbone's first output). -/
theorem pspnet_forward_arity (net : PSPNet) (backbone : Shape → Shape × Shape)
    (s : Shape) :
    (net.aux = true → ∀ out, net.hybridForwardShape backbone s = some out →
      ∃ x y, out = ForwardOut.pair x y ∧
        ∃ ab, net.aux_block = some ab ∧
          ab.forwardShape (backbone s).2 = some y) ∧
    (net.aux = false → ∀ out, net.hybridForwardShape backbone s = some out →
      ∃ x, out = ForwardOut.single x) ∧
    (net.aux = false → ∀ backbone2 : Shape → Shape × Shape,
      (backbone2 s).1 = (backbone s).1 →
      net.hybridForwardShape backbone2 s = net.hybridForwardShape backbone s) := by
  refine ⟨?_, ?_, ?_⟩
  · intro haux out h
    simp only [PSPNet.hybridForwardShape, haux, if_true] at h
    cases hp : net.pool.forwardShape (backbone s).1 with
    | none => rw [hp] at h; simp at h
    | some p1 =>
      rw [hp] at h
      simp only [Option.some_bind] at h
      cases hf : net.final_block.forwardShape p1 with
      | none => rw [hf] at h; simp at h
      | some x =>
        rw [hf] at h
        simp only [Option.some_bind] at h
        cases hab : net.aux_block with
        | none => rw [hab] at h; simp at h
        | some ab =>
          rw [hab] at h
          simp only [Option.some_bind] at h
          cases hy : ab.forwardShape (backbone s).2 with
          | none => rw [hy] at h; simp at h
          | some y =>
            rw [hy] at h
            simp only [Option.map_some', Option.some.injEq] at h
            exact ⟨x, y, h.symm, ab, rfl, hy⟩
  · intro haux out h
    simp only [PSPNet.hybridForwardShape, haux, Bool.false_eq_true, if_false] at h
    cases hp : net.pool.forwardShape (backbone s).1 with
    | none => rw [hp] at h; simp at h
    | some p1 =>
      rw [hp] at h
      simp only [Option.some_bind] at h
      cases hf : net.final_block.forwardShape p1 with
      | none => rw [hf] at h; simp at h
      | some x =>
        rw [hf] at h
        simp only [Option.some_bind, Option.some.injEq] at h
        exact ⟨x, h.symm⟩
  · intro haux backbone2 hb2
    simp only [PSPNet.hybridForwardShape, haux, Bool.false_eq_true, if_false, hb2]

/-- Concrete model for the C9 witness (same parameters as the self-test but
scaled down, `aux = False`). -/
def netC9 : PSPNet :=
  ⟨4, false, 3, (8, 8), 2, ⟨4, (1, 1), 1⟩, ⟨8, 2, (8, 8), 1⟩, none⟩

/-- Concrete backbone for the C9 witness. -/
def backboneC9 : Shape → Shape × Shape :=
  fun s => (⟨s.n, 4, 1, 1⟩, s)

/-- Witness for C9's theorem: the concrete `aux = False` forward pass
returns a single tensor. -/
theorem pspnet_forward_arity_witness :
    ∃ x, ForwardOut.single (Shape.mk 2 2 8 8) = ForwardOut.single x :=
  (pspnet_forward_arity netC9 backboneC9 ⟨2, 3, 8, 8⟩).2.1 rfl
    (ForwardOut.single ⟨2, 2, 8, 8⟩) (by decide)

/-- The eight published PSPNet variant constructors of `pspnet.py`. -/
inductive PSPNetVariant where
  | resnet50_voc
  | resnet101_voc
  | resnet50_coco
  | resnet101_coco
  | resnet50_ade20k
  | resnet101_ade20k
  | resnet50_sityscapes
  | resnet101_sityscapes
deriving DecidableEq, Repr

/-- The depth of the ResNet-D backbone each published constructor builds
(`resnetd50b` or `resnetd101b`). -/
def variantBackboneDepth : PSPNetVariant → Nat
  | .resnet50_voc => 50
  | .resnet101_voc => 101
  | .resnet50_coco => 50
  | .resnet101_coco => 101
  | .resnet50_ade20k => 50
  | .resnet101_ade20k => 101
  | .resnet50_sityscapes => 50
  | .resnet101_sityscapes => 101

/-- The `classes` default of each published constructor. -/
def variantClasses : PSPNetVariant → Nat
  | .resnet50_voc => 21
  | .resnet101_voc => 21
  | .resnet50_coco => 21
  | .resnet101_coco => 21
  | .resnet50_ade20k => 150
  | .resnet101_ade20k => 150
  | .resnet50_sityscapes => 19
  | .resnet101_sityscapes => 19

/-- The `model_name` string each published constructor passes to
`get_pspnet`, used to fetch that variant's pretrained weight file. -/
def variantModelName : PSPNetVariant → String
  | .resnet50_voc => "pspnet_resnet50_voc"
  | .resnet101_voc => "pspnet_resnet101_voc"
  | .resnet50_coco => "pspnet_resnet50_mscoco"
  | .resnet101_coco => "pspnet_resnet101_mscoco"
  | .resnet50_ade20k => "pspnet_resnet50_ade20k"
  | .resnet101_ade20k => "pspnet_resnet50_ade20k"
  | .resnet50_sityscapes => "pspnet_resnet50_sityscapes"
  | .resnet101_sityscapes => "pspnet_resnet101_sityscapes"

/-- Claim C4 (code-bug evidence): `pspnet_resnet101_ade20k`, which builds a
depth-101 backbone, passes the ResNet-50 ADE20K model name
`"pspnet_resnet50_ade20k"` to `get_pspnet` — the same name passed by
`pspnet_resnet50_ade20k` — contradicting its docstring and the naming
pattern of the other seven variants. -/
theorem pspnet_resnet101_ade20k_wrong_model_name :
    variantBackboneDepth PSPNetVariant.resnet101_ade20k = 101 ∧
    variantModelName PSPNetVariant.resnet101_ade20k = "pspnet_resnet50_ade20k" ∧
    variantModelName PSPNetVariant.resnet101_ade20k =
      variantModelName PSPNetVariant.resnet50_ade20k :=
  ⟨rfl, rfl, rfl⟩

/-- Errors `get_pspnet` can raise: an assertion failure inside the `PSPNet`
constructor, or the `ValueError` for a missing/empty `model_name` when
`pretrained` is requested. -/
inductive GetPspnetError where
  | initAssertError
  | valueErrorModelName
deriving DecidableEq, Repr

/-- The result of a successful `get_pspnet` call: the constructed net, and
the model-store weight file that was loaded into it, if any. -/
structure GetPspnetResult where
  net : PSPNet
  loadedModelFile : Option String
deriving DecidableEq, Repr

/-- Function `get_pspnet`: constructs the `PSPNet` first; then, only when
`pretrained` is true, it checks `(model_name is None) or (not model_name)`
and raises `ValueError` before loading anything if the check fires,
otherwise it loads the weight file named by `model_name` from the model
store. With `pretrained` false the model store is never consulted. -/
def get_pspnet (backbone_out_channels : Nat) (aux : Bool) (in_channels : Nat)
    (in_size : Nat × Nat) (classes : Nat) (model_name : Option String)
    (pretrained : Bool) : Except GetPspnetError GetPspnetResult :=
  match PSPNet.init backbone_out_channels aux in_channels in_size classes with
  | none => Except.error GetPspnetError.initAssertError
  | some net =>
    if pretrained then
      match model_name with
      | none => Except.error GetPspnetError.valueErrorModelName
      | some str =>
        if str = "" then Except.error GetPspnetError.valueErrorModelName
        else Except.ok ⟨net, some str⟩
    else Except.ok ⟨net, none⟩

/-- Claim C6: provided the `PSPNet` constructor itself succeeds,
`get_pspnet` raises `ValueError` exactly when `pretrained` is true and
`model_name` is `None` or empty; and with `pretrained` false it returns the
freshly constructed net without consulting the model store, regardless of
`model_name`. -/
theorem get_pspnet_pretrained_value_error (bb : Nat) (aux : Bool) (ic : Nat)
    (insz : Nat × Nat) (cls : Nat) (model_name : Option String)
    (pretrained : Bool) (net : PSPNet)
    (hinit : PSPNet.init bb aux ic insz cls = some net) :
    ((get_pspnet bb aux ic insz cls model_name pretrained =
        Except.error GetPspnetError.valueErrorModelName) ↔
      (pretrained = true ∧ (model_name = none ∨ model_name = some ""))) ∧
    (pretrained = false →
      get_pspnet bb aux ic insz cls model_name pretrained =
        Except.ok ⟨net, none⟩) := by
  constructor
  · cases pretrained with
    | false => simp [get_pspnet, hinit]
    | true =>
      cases model_name with
      | none => simp [get_pspnet, hinit]
      | some str =>
        by_cases hs : str = "" <;> simp [get_pspnet, hinit, hs]
  · intro hp
    subst hp
    simp [get_pspnet, hinit]

/-- Witness for C6's theorem: with `pretrained` and no `model_name`,
`get_pspnet` raises the `ValueError`. -/
theorem get_pspnet_pretrained_value_error_witness :
    get_pspnet 4 false 3 (8, 8) 2 none true =
      Except.error GetPspnetError.valueErrorModelName :=
  ((get_pspnet_pretrained_value_error 4 false 3 (8, 8) 2 none true
      ⟨4, false, 3, (8, 8), 2, ⟨4, (1, 1), 1⟩, ⟨8, 2, (8, 8), 1⟩, none⟩
      (by decide)).1).mpr ⟨rfl, Or.inl rfl⟩

end Pspnet
